import Mathlib

/-!
Shallow embedding of the notification-scheduling core of the smart-rounder
repository: the alarm store (`src/stores/useAlarmStore.ts`), the calendar
store (unnamed calendar-store source file), and the notification context
(`src/contexts/NotificationContext.tsx`).

Instants are modelled in whole minutes since an epoch that falls on a
Sunday 00:00, so that `t / 1440 % 7` is the JS `Date.getDay()` weekday
(0 = Sunday, 1 = Monday, ...), `t % 1440 / 60` the hour of day and
`t % 60` the minute.  The source compares candidate instants to `now`
after zeroing seconds and milliseconds (`setHours(h, m, 0, 0)`), so the
minute granularity is exact for every comparison the code performs.
-/

namespace SmartRounder

/-- The `Alarm` record (model file `Alarm.ts`).  `date` holds the day index
of the stored one-time date (the source stores an ISO date string whose
time-of-day is overwritten by `setHours`); string metadata fields that the
scheduling logic never reads are kept so that frame claims are statable. -/
structure Alarm where
  name : String
  hour : Nat
  minute : Nat
  days : List Nat
  enabled : Bool
  soundName : String
  vibrate : Bool
  snoozeMinutes : Nat
  gradualVolume : Bool
  notes : Option String
  isOneTime : Bool
  date : Option Nat
  notificationIds : List String
deriving Repr, DecidableEq

/-- The Boolean time-of-day comparison used three times inside
`getNextAlarmDate`:
`currentHour > alarm.hour || (currentHour === alarm.hour && currentMinute >= alarm.minute)`. -/
def alarmTimePassed (currentHour currentMinute hour minute : Nat) : Bool :=
  decide (hour < currentHour) || (decide (currentHour = hour) && decide (minute ≤ currentMinute))

/-- The comparator passed to `alarm.days.sort` in `getNextAlarmDate`
(`useAlarmStore.ts` lines 162-192), translated clause by clause.
`daysFromNow` values are computed in `Int` exactly as the JS
`(a - currentDay + 7) % 7` (both operands are non-negative, so JS `%`
agrees with `Int.emod`). -/
def alarmDayCmp (currentDay currentHour currentMinute hour minute : Nat) (a b : Nat) : Int :=
  let daysFromNowA : Int := ((a : Int) - (currentDay : Int) + 7) % 7
  let daysFromNowB : Int := ((b : Int) - (currentDay : Int) + 7) % 7
  if daysFromNowA = 0 ∧ daysFromNowB = 0 then
    if alarmTimePassed currentHour currentMinute hour minute then 1 else -1
  else if daysFromNowA = 0 ∧ alarmTimePassed currentHour currentMinute hour minute then
    daysFromNowA + 7 - daysFromNowB
  else if daysFromNowB = 0 ∧ alarmTimePassed currentHour currentMinute hour minute then
    daysFromNowA - (daysFromNowB + 7)
  else
    daysFromNowA - daysFromNowB

/-- Stable insertion of one element, used to model `Array.prototype.sort`
with a comparator (the comparator in the source is consistent, so any
comparison sort yields the same sorted order). -/
def insertSorted (le : Nat → Nat → Bool) (x : Nat) : List Nat → List Nat
  | [] => [x]
  | y :: ys => if le x y then x :: y :: ys else y :: insertSorted le x ys

/-- Insertion sort by a JS-style three-way comparator: `a` is placed before
`b` whenever `cmp a b ≤ 0`. -/
def sortWithCmp (cmp : Nat → Nat → Int) (l : List Nat) : List Nat :=
  l.foldr (insertSorted (fun a b => cmp a b ≤ 0)) []

/-- `getNextAlarmDate` (`useAlarmStore.ts` lines 141-213).  Returns the
next fire instant in minutes, or `none` when no future occurrence exists.
The JS `(nextDay - currentDay + 7) % 7` is rendered as
`(nextDay + 7 - currentDay) % 7`, identical because `currentDay ≤ 6 < nextDay + 7`. -/
def getNextAlarmDate (alarm : Alarm) (now : Nat) : Option Nat :=
  if alarm.isOneTime then
    match alarm.date with
    | some d =>
      let alarmDate := d * 1440 + alarm.hour * 60 + alarm.minute
      if now < alarmDate then some alarmDate else none
    | none => none
  else if alarm.days ≠ [] then
    let currentDay := now / 1440 % 7
    let currentHour := now % 1440 / 60
    let currentMinute := now % 60
    let sortedDays :=
      sortWithCmp (alarmDayCmp currentDay currentHour currentMinute alarm.hour alarm.minute)
        alarm.days
    match sortedDays with
    | [] => none
    | nextDay :: _ =>
      let daysToAdd := (nextDay + 7 - currentDay) % 7
      let daysToAdd :=
        if daysToAdd = 0 ∧ alarmTimePassed currentHour currentMinute alarm.hour alarm.minute
        then 7 else daysToAdd
      some ((now / 1440 + daysToAdd) * 1440 + alarm.hour * 60 + alarm.minute)
  else none

/-- The notification context (`NotificationContext.tsx`): the enabled flag,
and the result of the underlying `Notifications.scheduleNotificationAsync`
for a given fire instant.  The empty string is the sentinel the source
returns when notifications are disabled or scheduling fails. -/
structure NotificationCtx where
  notificationsEnabled : Bool
  scheduleResult : Nat → String

/-- `scheduleTaskNotification` (`NotificationContext.tsx` lines 109-136):
returns `""` when notifications are disabled, otherwise the dispatcher
result (which is itself `""` on failure). -/
def scheduleTaskNotification (ctx : NotificationCtx) (fireAt : Nat) : String :=
  if ctx.notificationsEnabled then ctx.scheduleResult fireAt else ""

/-- One observable call made to the notification dispatcher. -/
inductive DispatchCall where
  | schedule (fireAt : Nat)
  | cancel (id : String)
deriving Repr, DecidableEq

/-- Whether a dispatcher call is a `schedule` request. -/
def DispatchCall.isSchedule : DispatchCall → Bool
  | DispatchCall.schedule _ => true
  | DispatchCall.cancel _ => false

/-- The `for (const notificationId of notificationIds) { await cancel... }`
loop shared by `cancelAlarmNotifications` and `cancelEventNotifications`,
run inside a single try/catch: `cancelOk id = false` models the cancel call
for `id` throwing.  The value is the list of cancel calls the dispatcher
actually receives: the loop stops right after the first failing call
(the exception jumps to the catch), and the function itself never raises. -/
def cancelAttempts (cancelOk : String → Bool) : List String → List DispatchCall
  | [] => []
  | id :: rest =>
    if cancelOk id then DispatchCall.cancel id :: cancelAttempts cancelOk rest
    else [DispatchCall.cancel id]

/-- `cancelAlarmNotifications` (`useAlarmStore.ts` lines 268-276), as the
trace of cancel calls issued. -/
def cancelAlarmNotifications (cancelOk : String → Bool) (notificationIds : List String) :
    List DispatchCall :=
  cancelAttempts cancelOk notificationIds

/-- `cancelEventNotifications` (calendar store, identical body). -/
def cancelEventNotifications (cancelOk : String → Bool) (notificationIds : List String) :
    List DispatchCall :=
  cancelAttempts cancelOk notificationIds

/-- `scheduleAlarmNotifications` (`useAlarmStore.ts` lines 216-265):
returns the collected notification ids and the trace of dispatcher calls.
Ids are pushed only when truthy (non-empty), mirroring
`if (notificationId) { notificationIds.push(notificationId); }`. -/
def scheduleAlarmNotifications (ctx : NotificationCtx) (alarm : Alarm) (now : Nat) :
    List String × List DispatchCall :=
  if alarm.enabled then
    if ctx.notificationsEnabled then
      match getNextAlarmDate alarm now with
      | none => ([], [])
      | some nextAlarmDate =>
        let notificationId := scheduleTaskNotification ctx nextAlarmDate
        ((if notificationId ≠ "" then [notificationId] else []),
         [DispatchCall.schedule nextAlarmDate])
    else ([], [])
  else ([], [])

/-- The `CalendarEvent` record (model file `Calendar.ts`), restricted to
the fields the scheduling logic reads; `reminders` keeps each reminder's
`minutes` lead time. -/
structure CalendarEvent where
  title : String
  description : Option String
  startDate : Nat
  endDate : Nat
  allDay : Bool
  reminders : List Nat
  notificationIds : List String
deriving Repr, DecidableEq

/-- The body of the `for (const reminder of event.reminders)` loop of
`scheduleEventNotifications`: compute `reminderTime = startDate - minutes`,
skip it when it is not strictly after `now`
(`if (reminderTime <= new Date()) continue`), otherwise call the
dispatcher and push the id when it is truthy. -/
def scheduleEventStep (ctx : NotificationCtx) (startDate now : Nat)
    (acc : List String × List DispatchCall) (minutes : Nat) :
    List String × List DispatchCall :=
  let reminderTime := startDate - minutes
  if reminderTime ≤ now then acc
  else
    let notificationId := scheduleTaskNotification ctx reminderTime
    ((if notificationId ≠ "" then acc.1 ++ [notificationId] else acc.1),
     acc.2 ++ [DispatchCall.schedule reminderTime])

/-- `scheduleEventNotifications` (calendar store lines 139-182): one
candidate fire-time per reminder, `startDate - minutes`; candidates not
strictly after `now` are skipped before any dispatcher call. -/
def scheduleEventNotifications (ctx : NotificationCtx) (event : CalendarEvent) (now : Nat) :
    List String × List DispatchCall :=
  if event.reminders = [] then ([], [])
  else if ctx.notificationsEnabled then
    event.reminders.foldl (scheduleEventStep ctx event.startDate now) ([], [])
  else ([], [])

/-- A `Partial<Alarm>` update object as passed to `updateAlarm`: `some`
means the key is present.  `notificationIds`, `createdAt`, `updatedAt` and
`userId` are managed by the store itself, never by its callers. -/
structure AlarmPatch where
  name : Option String := none
  hour : Option Nat := none
  minute : Option Nat := none
  days : Option (List Nat) := none
  enabled : Option Bool := none
  soundName : Option String := none
  vibrate : Option Bool := none
  snoozeMinutes : Option Nat := none
  gradualVolume : Option Bool := none
  notes : Option (Option String) := none
  isOneTime : Option Bool := none
  date : Option (Option Nat) := none
deriving Repr

/-- The object spread `{ ...alarm, ...updatedAlarmData }`. -/
def applyAlarmPatch (alarm : Alarm) (p : AlarmPatch) : Alarm :=
  { alarm with
    name := p.name.getD alarm.name
    hour := p.hour.getD alarm.hour
    minute := p.minute.getD alarm.minute
    days := p.days.getD alarm.days
    enabled := p.enabled.getD alarm.enabled
    soundName := p.soundName.getD alarm.soundName
    vibrate := p.vibrate.getD alarm.vibrate
    snoozeMinutes := p.snoozeMinutes.getD alarm.snoozeMinutes
    gradualVolume := p.gradualVolume.getD alarm.gradualVolume
    notes := p.notes.getD alarm.notes
    isOneTime := p.isOneTime.getD alarm.isOneTime
    date := p.date.getD alarm.date }

/-- The reschedule condition of `updateAlarm` (`useAlarmStore.ts` lines
432-439): `'enabled' in updatedAlarmData || 'hour' in ... || 'minute' in ...
|| 'days' in ... || 'date' in ... || 'isOneTime' in ...`. -/
def alarmRescheduleKeys (p : AlarmPatch) : Bool :=
  p.enabled.isSome || p.hour.isSome || p.minute.isSome || p.days.isSome ||
    p.date.isSome || p.isOneTime.isSome

/-- `updateAlarm` (`useAlarmStore.ts` lines 409-513), restricted to its
notification bookkeeping: the updated alarm record and the trace of
dispatcher calls made during the update. -/
def updateAlarm (ctx : NotificationCtx) (cancelOk : String → Bool) (alarm : Alarm)
    (p : AlarmPatch) (now : Nat) : Alarm × List DispatchCall :=
  let updatedAlarm := applyAlarmPatch alarm p
  if alarmRescheduleKeys p then
    let cancelTrace :=
      if alarm.notificationIds ≠ [] then cancelAlarmNotifications cancelOk alarm.notificationIds
      else []
    let scheduled :=
      if updatedAlarm.enabled then scheduleAlarmNotifications ctx updatedAlarm now
      else ([], [])
    ({ updatedAlarm with notificationIds := scheduled.1 }, cancelTrace ++ scheduled.2)
  else (updatedAlarm, [])

/-- A `Partial<CalendarEvent>` update object as passed to `updateEvent`. -/
structure EventPatch where
  title : Option String := none
  description : Option (Option String) := none
  startDate : Option Nat := none
  endDate : Option Nat := none
  allDay : Option Bool := none
  reminders : Option (List Nat) := none
deriving Repr

/-- The object spread `{ ...event, ...updatedEventData }`. -/
def applyEventPatch (event : CalendarEvent) (p : EventPatch) : CalendarEvent :=
  { event with
    title := p.title.getD event.title
    description := p.description.getD event.description
    startDate := p.startDate.getD event.startDate
    endDate := p.endDate.getD event.endDate
    allDay := p.allDay.getD event.allDay
    reminders := p.reminders.getD event.reminders }

/-- `updateEvent` (calendar store lines 354-445), restricted to its
notification bookkeeping.  Note the guard: notifications are cancelled and
recreated only when the event already has outstanding ids AND the patch
touches `reminders` or `startDate`
(`(event.notificationIds && event.notificationIds.length > 0) &&
(updatedEventData.reminders || updatedEventData.startDate)`). -/
def updateEvent (ctx : NotificationCtx) (cancelOk : String → Bool) (event : CalendarEvent)
    (p : EventPatch) (now : Nat) : CalendarEvent × List DispatchCall :=
  let updatedEvent := applyEventPatch event p
  if event.notificationIds ≠ [] ∧ (p.reminders.isSome ∨ p.startDate.isSome) then
    let cancelTrace := cancelEventNotifications cancelOk event.notificationIds
    let scheduled := scheduleEventNotifications ctx updatedEvent now
    ({ updatedEvent with notificationIds := scheduled.1 }, cancelTrace ++ scheduled.2)
  else (updatedEvent, [])

/-! ## Helper lemmas -/

/-- If the time-of-day check fails, the alarm's time-of-day is still ahead
of `now`'s time-of-day. -/
lemma alarmTimePassed_eq_false_lt (now hour minute : Nat)
    (h : alarmTimePassed (now % 1440 / 60) (now % 60) hour minute = false) :
    now % 1440 < hour * 60 + minute := by
  simp only [alarmTimePassed, Bool.or_eq_false_iff, Bool.and_eq_false_iff,
    decide_eq_false_iff_not, Nat.not_lt, Nat.not_le] at h
  rcases h with ⟨h1, h2⟩
  rcases h2 with h2 | h2
  · rcases Nat.lt_or_ge (now % 1440 / 60) hour with hlt | hge
    · omega
    · exact absurd (Nat.le_antisymm (by omega) hge) (by simpa using h2)
  · omega

/-- If `now`'s time-of-day equals the alarm's time-of-day exactly, the
time-of-day check reports it as already passed. -/
lemma alarmTimePassed_of_tod_eq (now hour minute : Nat)
    (h : now % 1440 = hour * 60 + minute) :
    alarmTimePassed (now % 1440 / 60) (now % 60) hour minute = true := by
  simp only [alarmTimePassed, Bool.or_eq_true, Bool.and_eq_true, decide_eq_true_eq]
  omega

/-- Sorting a singleton is the identity. -/
lemma sortWithCmp_singleton (cmp : Nat → Nat → Int) (x : Nat) :
    sortWithCmp cmp [x] = [x] := rfl

/-- Evaluation of `getNextAlarmDate` on the repeating branch, given the
result of the sort. -/
lemma getNextAlarmDate_repeating_eval (a : Alarm) (now : Nat) (ho : a.isOneTime = false)
    (hne : a.days ≠ []) (nextDay : Nat) (rest : List Nat)
    (hs : sortWithCmp
        (alarmDayCmp (now / 1440 % 7) (now % 1440 / 60) (now % 60) a.hour a.minute)
        a.days = nextDay :: rest) :
    getNextAlarmDate a now =
      some ((now / 1440 +
        (if (nextDay + 7 - now / 1440 % 7) % 7 = 0 ∧
            alarmTimePassed (now % 1440 / 60) (now % 60) a.hour a.minute
         then 7 else (nextDay + 7 - now / 1440 % 7) % 7)) * 1440 +
        a.hour * 60 + a.minute) := by
  unfold getNextAlarmDate
  rw [ho]
  simp only [Bool.false_eq_true, if_false, hs, if_pos hne]

/-! ## Claims about the next-occurrence calculator -/

/-- C3: a one-time spec strictly after `now` yields exactly its own
instant; a one-time spec at or before `now` yields no occurrence. -/
theorem getNextAlarmDate_oneTime (a : Alarm) (now d : Nat)
    (h1 : a.isOneTime = true) (h2 : a.date = some d) :
    (now < d * 1440 + a.hour * 60 + a.minute →
      getNextAlarmDate a now = some (d * 1440 + a.hour * 60 + a.minute)) ∧
    (d * 1440 + a.hour * 60 + a.minute ≤ now →
      getNextAlarmDate a now = none) := by
  unfold getNextAlarmDate
  rw [h1, h2]
  constructor
  · intro hlt
    simp [hlt]
  · intro hge
    simp [Nat.not_lt.mpr hge]

/-- Witness for C3 at a concrete one-time alarm (day 2 at 09:00, i.e.
instant 3420): `now = 1000` is before it, `now = 3420` is not. -/
theorem getNextAlarmDate_oneTime_witness :
    getNextAlarmDate ⟨"a", 9, 0, [], true, "s", true, 5, false, none, true, some 2, []⟩
        1000 = some 3420 ∧
    getNextAlarmDate ⟨"a", 9, 0, [], true, "s", true, 5, false, none, true, some 2, []⟩
        3420 = none := by
  constructor
  · have h := (getNextAlarmDate_oneTime
      ⟨"a", 9, 0, [], true, "s", true, 5, false, none, true, some 2, []⟩ 1000 2 rfl rfl).1
      (by norm_num)
    simpa using h
  · exact (getNextAlarmDate_oneTime
      ⟨"a", 9, 0, [], true, "s", true, 5, false, none, true, some 2, []⟩ 3420 2 rfl rfl).2
      (by norm_num)

/-- C2: whenever the calculator returns an occurrence it is strictly after
`now`; and when a recurring spec's (singleton) weekday set is exactly
today's weekday and `now` equals the candidate to the minute, the
occurrence is pushed a full week ahead. -/
theorem getNextAlarmDate_strictly_after (a : Alarm) (now t : Nat)
    (h : getNextAlarmDate a now = some t) :
    now < t ∧
    (a.isOneTime = false → a.days = [now / 1440 % 7] →
      now % 1440 = a.hour * 60 + a.minute → t = now + 7 * 1440) := by
  by_cases h1 : a.isOneTime = true
  · unfold getNextAlarmDate at h
    rw [h1] at h
    refine ⟨?_, ?_⟩
    · cases hd : a.date with
      | none => rw [hd] at h; simp at h
      | some d =>
        rw [hd] at h
        simp only [if_true] at h
        by_cases hlt : now < d * 1440 + a.hour * 60 + a.minute
        · rw [if_pos hlt] at h
          simp only [Option.some.injEq] at h
          omega
        · rw [if_neg hlt] at h
          simp at h
    · intro hfalse
      rw [h1] at hfalse
      simp at hfalse
  · have ho : a.isOneTime = false := by
      simpa using h1
    by_cases hne : a.days ≠ []
    · cases hs : sortWithCmp
          (alarmDayCmp (now / 1440 % 7) (now % 1440 / 60) (now % 60) a.hour a.minute)
          a.days with
      | nil =>
        exfalso
        unfold getNextAlarmDate at h
        rw [ho] at h
        simp only [Bool.false_eq_true, if_false, hs, if_pos hne] at h
        exact Option.noConfusion h
      | cons nextDay rest =>
        rw [getNextAlarmDate_repeating_eval a now ho hne nextDay rest hs] at h
        simp only [Option.some.injEq] at h
        constructor
        · by_cases hc : (nextDay + 7 - now / 1440 % 7) % 7 = 0 ∧
              alarmTimePassed (now % 1440 / 60) (now % 60) a.hour a.minute
          · rw [if_pos hc] at h
            omega
          · rw [if_neg hc] at h
            by_cases hz : (nextDay + 7 - now / 1440 % 7) % 7 = 0
            · have hpf : alarmTimePassed (now % 1440 / 60) (now % 60) a.hour a.minute = false := by
                rcases Bool.eq_false_or_eq_true
                  (alarmTimePassed (now % 1440 / 60) (now % 60) a.hour a.minute) with hb | hb
                · exact absurd ⟨hz, hb⟩ hc
                · exact hb
              have := alarmTimePassed_eq_false_lt now a.hour a.minute hpf
              omega
            · omega
        · intro _ hdays htod
          have hpass := alarmTimePassed_of_tod_eq now a.hour a.minute htod
          have hnext : nextDay = now / 1440 % 7 := by
            rw [hdays, sortWithCmp_singleton] at hs
            exact (List.cons.injEq _ _ _ _ ▸ hs).1.symm ▸ rfl
          subst hnext
          rw [if_pos ⟨by omega, hpass⟩] at h
          omega
    · exfalso
      unfold getNextAlarmDate at h
      rw [ho] at h
      simp only [Bool.false_eq_true, if_false, if_neg hne] at h
      exact Option.noConfusion h

/-- Witness for C2: for the alarm `days = [1]` at 09:00 and `now` Monday
09:00 exactly (minute-equal candidate), the result is one week later and
strictly after `now`. -/
theorem getNextAlarmDate_strictly_after_witness :
    1980 < 12060 ∧
    getNextAlarmDate ⟨"a", 9, 0, [1], true, "s", true, 5, false, none, false, none, []⟩
        1980 = some 12060 := by
  have hval : getNextAlarmDate
      ⟨"a", 9, 0, [1], true, "s", true, 5, false, none, false, none, []⟩ 1980 =
      some 12060 := by decide
  have h := getNextAlarmDate_strictly_after
    ⟨"a", 9, 0, [1], true, "s", true, 5, false, none, false, none, []⟩ 1980 12060 hval
  exact ⟨h.1, hval⟩

/-- C1: with weekday set {Monday, Wednesday} at 09:00 (`D` is the absolute
day index of a Monday, so `now = D * 1440 + tod`): from Monday 08:00 the
next occurrence is Monday 09:00 the same day; from Monday 10:00 it is
Wednesday 09:00; from Thursday 00:00 it is Monday 09:00 of the following
week. -/
theorem getNextAlarmDate_mon_wed (a : Alarm) (D : Nat)
    (hdays : a.days = [1, 3] ∨ a.days = [3, 1]) (hh : a.hour = 9) (hm : a.minute = 0)
    (ho : a.isOneTime = false) (hD : D % 7 = 1) :
    getNextAlarmDate a (D * 1440 + 480) = some (D * 1440 + 540) ∧
    getNextAlarmDate a (D * 1440 + 600) = some ((D + 2) * 1440 + 540) ∧
    getNextAlarmDate a ((D + 3) * 1440) = some ((D + 7) * 1440 + 540) := by
  have hne : a.days ≠ [] := by
    rcases hdays with hd | hd <;> simp [hd]
  refine ⟨?_, ?_, ?_⟩
  · -- now = Monday 08:00
    have hs : sortWithCmp
        (alarmDayCmp ((D * 1440 + 480) / 1440 % 7) ((D * 1440 + 480) % 1440 / 60)
          ((D * 1440 + 480) % 60) a.hour a.minute) a.days = 1 :: [3] := by
      rw [hh, hm, (by omega : (D * 1440 + 480) / 1440 % 7 = 1),
        (by omega : (D * 1440 + 480) % 1440 / 60 = 8),
        (by omega : (D * 1440 + 480) % 60 = 0)]
      rcases hdays with hd | hd <;> rw [hd] <;> decide
    rw [getNextAlarmDate_repeating_eval a (D * 1440 + 480) ho hne 1 [3] hs]
    rw [hh, hm, (by omega : (D * 1440 + 480) / 1440 % 7 = 1),
      (by omega : (D * 1440 + 480) % 1440 / 60 = 8),
      (by omega : (D * 1440 + 480) % 60 = 0),
      (by omega : (D * 1440 + 480) / 1440 = D)]
    norm_num [alarmTimePassed]
  · -- now = Monday 10:00
    have hs : sortWithCmp
        (alarmDayCmp ((D * 1440 + 600) / 1440 % 7) ((D * 1440 + 600) % 1440 / 60)
          ((D * 1440 + 600) % 60) a.hour a.minute) a.days = 3 :: [1] := by
      rw [hh, hm, (by omega : (D * 1440 + 600) / 1440 % 7 = 1),
        (by omega : (D * 1440 + 600) % 1440 / 60 = 10),
        (by omega : (D * 1440 + 600) % 60 = 0)]
      rcases hdays with hd | hd <;> rw [hd] <;> decide
    rw [getNextAlarmDate_repeating_eval a (D * 1440 + 600) ho hne 3 [1] hs]
    rw [hh, hm, (by omega : (D * 1440 + 600) / 1440 % 7 = 1),
      (by omega : (D * 1440 + 600) % 1440 / 60 = 10),
      (by omega : (D * 1440 + 600) % 60 = 0),
      (by omega : (D * 1440 + 600) / 1440 = D)]
    norm_num [alarmTimePassed]
  · -- now = Thursday 00:00
    have hs : sortWithCmp
        (alarmDayCmp ((D + 3) * 1440 / 1440 % 7) ((D + 3) * 1440 % 1440 / 60)
          ((D + 3) * 1440 % 60) a.hour a.minute) a.days = 1 :: [3] := by
      rw [hh, hm, (by omega : (D + 3) * 1440 / 1440 % 7 = 4),
        (by omega : (D + 3) * 1440 % 1440 / 60 = 0),
        (by omega : (D + 3) * 1440 % 60 = 0)]
      rcases hdays with hd | hd <;> rw [hd] <;> decide
    rw [getNextAlarmDate_repeating_eval a ((D + 3) * 1440) ho hne 1 [3] hs]
    rw [hh, hm, (by omega : (D + 3) * 1440 / 1440 % 7 = 4),
      (by omega : (D + 3) * 1440 % 1440 / 60 = 0),
      (by omega : (D + 3) * 1440 % 60 = 0),
      (by omega : (D + 3) * 1440 / 1440 = D + 3)]
    norm_num [alarmTimePassed]

/-- Witness for C1 in the week of day 1 (`D = 1`). -/
theorem getNextAlarmDate_mon_wed_witness :
    getNextAlarmDate ⟨"a", 9, 0, [1, 3], true, "s", true, 5, false, none, false, none, []⟩
        1920 = some 1980 ∧
    getNextAlarmDate ⟨"a", 9, 0, [1, 3], true, "s", true, 5, false, none, false, none, []⟩
        2040 = some 4860 ∧
    getNextAlarmDate ⟨"a", 9, 0, [1, 3], true, "s", true, 5, false, none, false, none, []⟩
        5760 = some 12060 := by
  have h := getNextAlarmDate_mon_wed
    ⟨"a", 9, 0, [1, 3], true, "s", true, 5, false, none, false, none, []⟩ 1
    (Or.inl rfl) rfl rfl rfl (by norm_num)
  refine ⟨?_, ?_, ?_⟩
  · simpa using h.1
  · simpa using h.2.1
  · simpa using h.2.2

/-! ## Helper lemmas about the orchestrator -/

/-- When every cancel call succeeds, each handle receives exactly one
cancel call, in order. -/
lemma cancelAttempts_all_ok (co : String → Bool) :
    ∀ l : List String, (∀ id ∈ l, co id = true) →
      cancelAttempts co l = l.map DispatchCall.cancel := by
  intro l
  induction l with
  | nil => intro _; rfl
  | cons id rest ih =>
    intro h
    have hid : co id = true := h id (List.mem_cons_self id rest)
    simp only [cancelAttempts, hid, if_true, List.map_cons]
    rw [ih (fun x hx => h x (List.mem_cons_of_mem id hx))]

/-- The cancel loop emits only cancel calls, never schedule calls. -/
lemma cancelAttempts_no_schedule (co : String → Bool) :
    ∀ l : List String,
      (cancelAttempts co l).filter (fun c => c.isSchedule) = [] := by
  intro l
  induction l with
  | nil => rfl
  | cons id rest ih =>
    by_cases hc : co id
    · simp only [cancelAttempts, hc, if_true, List.filter_cons, DispatchCall.isSchedule,
        Bool.false_eq_true, if_false]
      exact ih
    · simp only [cancelAttempts, hc, Bool.false_eq_true, if_false, List.filter_cons,
        DispatchCall.isSchedule]
      rfl

/-- When the dispatcher always returns the empty-string sentinel, so does
`scheduleTaskNotification`. -/
lemma scheduleTaskNotification_null (ctx : NotificationCtx)
    (hnull : ∀ t, ctx.scheduleResult t = "") (t : Nat) :
    scheduleTaskNotification ctx t = "" := by
  unfold scheduleTaskNotification
  split
  · exact hnull t
  · rfl

/-- When the dispatcher always returns the sentinel, no alarm notification
id is ever collected. -/
lemma scheduleAlarmNotifications_ids_null (ctx : NotificationCtx) (a : Alarm) (now : Nat)
    (hnull : ∀ t, ctx.scheduleResult t = "") :
    (scheduleAlarmNotifications ctx a now).1 = [] := by
  unfold scheduleAlarmNotifications
  split
  · split
    · cases h : getNextAlarmDate a now with
      | none => rfl
      | some t => simp [scheduleTaskNotification_null ctx hnull t]
    · rfl
  · rfl

/-- When the dispatcher always returns the sentinel, the event loop never
collects an id, whatever the accumulator. -/
lemma scheduleEventStep_foldl_ids_null (ctx : NotificationCtx) (s now : Nat)
    (hnull : ∀ t, ctx.scheduleResult t = "") :
    ∀ (l : List Nat) (acc : List String × List DispatchCall),
      (l.foldl (scheduleEventStep ctx s now) acc).1 = acc.1 := by
  intro l
  induction l with
  | nil => intro acc; rfl
  | cons m rest ih =>
    intro acc
    rw [List.foldl_cons, ih]
    simp only [scheduleEventStep]
    split
    · rfl
    · simp [scheduleTaskNotification_null ctx hnull]

/-- When the dispatcher always returns the sentinel, no event notification
id is ever collected. -/
lemma scheduleEventNotifications_ids_null (ctx : NotificationCtx) (e : CalendarEvent) (now : Nat)
    (hnull : ∀ t, ctx.scheduleResult t = "") :
    (scheduleEventNotifications ctx e now).1 = [] := by
  unfold scheduleEventNotifications
  split
  · rfl
  · split
    · rw [scheduleEventStep_foldl_ids_null ctx e.startDate now hnull]
    · rfl

/-- An alarm whose weekday set is empty and which is not one-time has no
next occurrence. -/
lemma getNextAlarmDate_empty_days (a : Alarm) (now : Nat)
    (hdays : a.days = []) (ho : a.isOneTime = false) :
    getNextAlarmDate a now = none := by
  unfold getNextAlarmDate
  rw [ho]
  simp [hdays]

/-- An alarm whose weekday set is empty and which is not one-time is never
scheduled, whatever its `enabled` flag. -/
lemma scheduleAlarmNotifications_empty_days (ctx : NotificationCtx) (a : Alarm) (now : Nat)
    (hdays : a.days = []) (ho : a.isOneTime = false) :
    scheduleAlarmNotifications ctx a now = ([], []) := by
  unfold scheduleAlarmNotifications
  rw [getNextAlarmDate_empty_days a now hdays ho]
  split
  · split <;> rfl
  · rfl

/-! ## Claims about the orchestrator -/

/-- C4 counterexample: with two outstanding handles where cancelling the
first fails, the second handle never receives a cancel attempt, contrary
to the claim that every remaining handle is still attempted. -/
theorem cancelNotifications_failure_cex :
    cancelAlarmNotifications (fun id => !(id == "a")) ["a", "b"] =
      [DispatchCall.cancel "a"] ∧
    DispatchCall.cancel "b" ∉
      cancelAlarmNotifications (fun id => !(id == "a")) ["a", "b"] := by
  constructor
  · rfl
  · simp [cancelAlarmNotifications, cancelAttempts]

/-- C4 amended: a failed cancellation is swallowed (the orchestrator never
raises), but the loop stops at the first failure — exactly the handles up
to and including the first failing one are attempted, and when no
cancellation fails every handle is attempted.  This holds for the alarm
and the event orchestrator alike. -/
theorem cancelNotifications_stop_at_first_failure (co : String → Bool) (ids : List String) :
    cancelAlarmNotifications co ids =
      (ids.takeWhile co).map DispatchCall.cancel ++
        ((ids.dropWhile co).take 1).map DispatchCall.cancel ∧
    cancelEventNotifications co ids =
      (ids.takeWhile co).map DispatchCall.cancel ++
        ((ids.dropWhile co).take 1).map DispatchCall.cancel := by
  have key : ∀ l : List String,
      cancelAttempts co l =
        (l.takeWhile co).map DispatchCall.cancel ++
          ((l.dropWhile co).take 1).map DispatchCall.cancel := by
    intro l
    induction l with
    | nil => rfl
    | cons id rest ih =>
      by_cases hc : co id
      · simp [cancelAttempts, hc, List.takeWhile_cons, List.dropWhile_cons, ih]
      · simp [cancelAttempts, hc, List.takeWhile_cons, List.dropWhile_cons]
  exact ⟨key ids, key ids⟩

/-- C5 counterexample: adding a reminder to an event that has zero
outstanding handles makes no dispatcher call at all and leaves the handle
set empty, even though running the reminder expansion on the updated event
would schedule one notification (future fire-time, dispatcher available). -/
theorem updateEvent_zero_handles_cex :
    (updateEvent ⟨true, fun _ => "n1"⟩ (fun _ => true)
        ⟨"e", none, 1000, 1060, false, [], []⟩ { reminders := some [10] } 0).2 = [] ∧
    (updateEvent ⟨true, fun _ => "n1"⟩ (fun _ => true)
        ⟨"e", none, 1000, 1060, false, [], []⟩ { reminders := some [10] } 0).1.notificationIds
      = [] ∧
    (scheduleEventNotifications ⟨true, fun _ => "n1"⟩
        (applyEventPatch ⟨"e", none, 1000, 1060, false, [], []⟩ { reminders := some [10] })
        0).1 = ["n1"] := by
  refine ⟨rfl, rfl, rfl⟩

/-- C5 amended: on an update touching the scheduling fields, handles are
invalidated and recreated — for calendar events only when the event had at
least one outstanding handle before the update; an update to an event with
zero outstanding handles leaves the (empty) handle set unchanged and makes
no dispatcher call.  For alarms the handle set is rebuilt regardless of the
prior handle count. -/
theorem update_reschedule_requires_prior_handles (ctx : NotificationCtx) (co : String → Bool)
    (e : CalendarEvent) (p : EventPatch) (a : Alarm) (pa : AlarmPatch) (now : Nat) :
    (e.notificationIds = [] →
      updateEvent ctx co e p now = (applyEventPatch e p, [])) ∧
    (e.notificationIds ≠ [] → (p.reminders.isSome ∨ p.startDate.isSome) →
      updateEvent ctx co e p now =
        ({ applyEventPatch e p with
            notificationIds := (scheduleEventNotifications ctx (applyEventPatch e p) now).1 },
         cancelEventNotifications co e.notificationIds ++
           (scheduleEventNotifications ctx (applyEventPatch e p) now).2)) ∧
    (alarmRescheduleKeys pa = true →
      (updateAlarm ctx co a pa now).1.notificationIds =
        (if (applyAlarmPatch a pa).enabled = true
         then (scheduleAlarmNotifications ctx (applyAlarmPatch a pa) now).1 else [])) := by
  refine ⟨?_, ?_, ?_⟩
  · intro h
    unfold updateEvent
    rw [if_neg]
    simp [h]
  · intro h1 h2
    unfold updateEvent
    rw [if_pos ⟨h1, h2⟩]
  · intro h
    unfold updateAlarm
    rw [h]
    simp only [if_true]
    split <;> rfl

/-- Witness for C5's amended claim at the counterexample input (the
zero-handle case). -/
theorem update_reschedule_requires_prior_handles_witness :
    updateEvent ⟨true, fun _ => "n1"⟩ (fun _ => true)
        ⟨"e", none, 1000, 1060, false, [], []⟩ { reminders := some [10] } 0 =
      (applyEventPatch ⟨"e", none, 1000, 1060, false, [], []⟩ { reminders := some [10] }, []) :=
  (update_reschedule_requires_prior_handles ⟨true, fun _ => "n1"⟩ (fun _ => true)
    ⟨"e", none, 1000, 1060, false, [], []⟩ { reminders := some [10] }
    ⟨"a", 9, 0, [1], true, "s", true, 5, false, none, false, none, []⟩ {} 0).1 rfl

/-- C6: for an event with reminder offsets `[60, 0]` minutes and nominal
occurrence `T`, the expansion requests exactly the candidates `T - 60` and
`T` that are strictly after `now`, in that order; the others are dropped
without a dispatcher call. -/
theorem scheduleEventNotifications_reminder_expansion (ctx : NotificationCtx)
    (e : CalendarEvent) (now T : Nat) (hrem : e.reminders = [60, 0])
    (hstart : e.startDate = T) (hen : ctx.notificationsEnabled = true) :
    (scheduleEventNotifications ctx e now).2 =
      ([T - 60, T].filter (fun c => decide (now < c))).map DispatchCall.schedule := by
  unfold scheduleEventNotifications
  rw [hrem, hstart, hen]
  rw [if_neg (by simp), if_pos rfl]
  simp only [List.foldl_cons, List.foldl_nil]
  by_cases h1 : T - 60 ≤ now
  · by_cases h2 : T ≤ now
    · simp [scheduleEventStep, h1, h2, Nat.sub_zero, Nat.not_lt.mpr h1, Nat.not_lt.mpr h2]
    · simp [scheduleEventStep, h1, h2, Nat.sub_zero, Nat.not_lt.mpr h1, Nat.lt_of_not_le h2]
  · have h2 : ¬(T ≤ now) := by omega
    simp [scheduleEventStep, h1, h2, Nat.sub_zero, Nat.lt_of_not_le h1, Nat.lt_of_not_le h2]

/-- Witness for C6: `T = 1000`, `now = 950`: the `T - 60` candidate is
dropped, the `T` candidate is scheduled. -/
theorem scheduleEventNotifications_reminder_expansion_witness :
    (scheduleEventNotifications ⟨true, fun _ => "n"⟩
        ⟨"e", none, 1000, 1060, false, [60, 0], []⟩ 950).2 =
      [DispatchCall.schedule 1000] :=
  (scheduleEventNotifications_reminder_expansion ⟨true, fun _ => "n"⟩
    ⟨"e", none, 1000, 1060, false, [60, 0], []⟩ 950 1000 rfl rfl rfl).trans (by decide)

/-- C7: disabling an enabled alarm with outstanding handles leaves zero
outstanding handles after the update, and (cancellation succeeding) the
dispatcher receives exactly one cancel call per previously outstanding
handle. -/
theorem updateAlarm_disable_cancels_each (ctx : NotificationCtx) (co : String → Bool)
    (a : Alarm) (now : Nat) (henab : a.enabled = true) (hne : a.notificationIds ≠ [])
    (hok : ∀ id ∈ a.notificationIds, co id = true) :
    (updateAlarm ctx co a ({ enabled := some false } : AlarmPatch) now).1.notificationIds
      = [] ∧
    (updateAlarm ctx co a ({ enabled := some false } : AlarmPatch) now).2 =
      a.notificationIds.map DispatchCall.cancel := by
  have hupd : (applyAlarmPatch a { enabled := some false }).enabled = false := rfl
  unfold updateAlarm
  rw [if_pos (show alarmRescheduleKeys ({ enabled := some false } : AlarmPatch) = true
    from rfl)]
  rw [hupd]
  rw [if_neg (show ¬(false = true) from by simp)]
  rw [if_pos hne]
  rw [cancelAlarmNotifications, cancelAttempts_all_ok co a.notificationIds hok]
  simp

/-- Witness for C7 at a concrete alarm with handles `["x", "y"]`. -/
theorem updateAlarm_disable_cancels_each_witness :
    (updateAlarm ⟨true, fun _ => "n"⟩ (fun _ => true)
        ⟨"a", 9, 0, [1], true, "s", true, 5, false, none, false, none, ["x", "y"]⟩
        ({ enabled := some false } : AlarmPatch) 0).1.notificationIds = [] ∧
    (updateAlarm ⟨true, fun _ => "n"⟩ (fun _ => true)
        ⟨"a", 9, 0, [1], true, "s", true, 5, false, none, false, none, ["x", "y"]⟩
        ({ enabled := some false } : AlarmPatch) 0).2 =
      [DispatchCall.cancel "x", DispatchCall.cancel "y"] := by
  have h := updateAlarm_disable_cancels_each ⟨true, fun _ => "n"⟩ (fun _ => true)
    ⟨"a", 9, 0, [1], true, "s", true, 5, false, none, false, none, ["x", "y"]⟩ 0
    rfl (by simp) (by intro id _; rfl)
  exact ⟨h.1, h.2.trans (by decide)⟩

/-- C8: when the dispatcher answers every schedule request with the
null/disabled sentinel, reconciliation completes (no error is modelled —
the functions are total) and the persisted handle set is empty: for alarm
scheduling, event scheduling, and a full alarm update that reschedules. -/
theorem reconcile_null_schedule_empty_handles (ctx : NotificationCtx) (co : String → Bool)
    (a : Alarm) (e : CalendarEvent) (p : AlarmPatch) (now : Nat)
    (hnull : ∀ t, ctx.scheduleResult t = "") :
    (scheduleAlarmNotifications ctx a now).1 = [] ∧
    (scheduleEventNotifications ctx e now).1 = [] ∧
    (alarmRescheduleKeys p = true →
      (updateAlarm ctx co a p now).1.notificationIds = []) := by
  refine ⟨scheduleAlarmNotifications_ids_null ctx a now hnull,
    scheduleEventNotifications_ids_null ctx e now hnull, ?_⟩
  intro hk
  unfold updateAlarm
  rw [hk]
  simp only [if_true]
  split
  · simp [scheduleAlarmNotifications_ids_null ctx _ now hnull]
  · rfl

/-- Witness for C8 with an always-sentinel dispatcher. -/
theorem reconcile_null_schedule_empty_handles_witness :
    (scheduleAlarmNotifications ⟨true, fun _ => ""⟩
        ⟨"a", 9, 0, [1], true, "s", true, 5, false, none, false, none, []⟩ 0).1 = [] ∧
    (scheduleEventNotifications ⟨true, fun _ => ""⟩
        ⟨"e", none, 1000, 1060, false, [60, 0], []⟩ 0).1 = [] ∧
    (updateAlarm ⟨true, fun _ => ""⟩ (fun _ => true)
        ⟨"a", 9, 0, [1], true, "s", true, 5, false, none, false, none, []⟩
        ({ enabled := some true } : AlarmPatch) 0).1.notificationIds = [] := by
  have h := reconcile_null_schedule_empty_handles ⟨true, fun _ => ""⟩ (fun _ => true)
    ⟨"a", 9, 0, [1], true, "s", true, 5, false, none, false, none, []⟩
    ⟨"e", none, 1000, 1060, false, [60, 0], []⟩
    ({ enabled := some true } : AlarmPatch) 0 (fun _ => rfl)
  exact ⟨h.1, h.2.1, h.2.2 rfl⟩

/-- C9: an alarm with an empty weekday set and `isOneTime = false` has no
next occurrence and is never scheduled (whatever `enabled` is); an update
of such an alarm that triggers rescheduling persists an empty handle set
and makes no schedule call. -/
theorem alarm_empty_days_schedules_nothing (ctx : NotificationCtx) (co : String → Bool)
    (a : Alarm) (p : AlarmPatch) (now : Nat)
    (hdays : a.days = []) (ho : a.isOneTime = false) :
    getNextAlarmDate a now = none ∧
    scheduleAlarmNotifications ctx a now = ([], []) ∧
    (p.days = none → p.isOneTime = none → alarmRescheduleKeys p = true →
      (updateAlarm ctx co a p now).1.notificationIds = [] ∧
      ((updateAlarm ctx co a p now).2.filter (fun c => c.isSchedule)) = []) := by
  refine ⟨getNextAlarmDate_empty_days a now hdays ho,
    scheduleAlarmNotifications_empty_days ctx a now hdays ho, ?_⟩
  intro hpd hpo hk
  have hud : (applyAlarmPatch a p).days = [] := by
    simp [applyAlarmPatch, hpd, hdays]
  have huo : (applyAlarmPatch a p).isOneTime = false := by
    simp [applyAlarmPatch, hpo, ho]
  have hsched : scheduleAlarmNotifications ctx (applyAlarmPatch a p) now = ([], []) :=
    scheduleAlarmNotifications_empty_days ctx _ now hud huo
  unfold updateAlarm
  rw [hk]
  simp only [if_true]
  constructor
  · split <;> simp [hsched]
  · split <;>
      simp [hsched, List.filter_append, cancelAttempts_no_schedule, cancelAlarmNotifications]

/-- Witness for C9 at a concrete alarm with `days = []`, toggled on. -/
theorem alarm_empty_days_schedules_nothing_witness :
    getNextAlarmDate ⟨"a", 9, 0, [], false, "s", true, 5, false, none, false, none, []⟩ 0
      = none ∧
    scheduleAlarmNotifications ⟨true, fun _ => "n"⟩
        ⟨"a", 9, 0, [], false, "s", true, 5, false, none, false, none, []⟩ 0 = ([], []) ∧
    (updateAlarm ⟨true, fun _ => "n"⟩ (fun _ => true)
        ⟨"a", 9, 0, [], false, "s", true, 5, false, none, false, none, []⟩
        ({ enabled := some true } : AlarmPatch) 0).1.notificationIds = [] := by
  have h := alarm_empty_days_schedules_nothing ⟨true, fun _ => "n"⟩ (fun _ => true)
    ⟨"a", 9, 0, [], false, "s", true, 5, false, none, false, none, []⟩
    ({ enabled := some true } : AlarmPatch) 0 rfl rfl
  exact ⟨h.1, h.2.1, (h.2.2 rfl rfl rfl).1⟩

/-- C10 (frame): an update whose patch touches none of `enabled`, `hour`,
`minute`, `days`, `date`, `isOneTime` leaves `notificationIds` unchanged
and makes no dispatcher call at all. -/
theorem updateAlarm_unrelated_fields_frame (ctx : NotificationCtx) (co : String → Bool)
    (a : Alarm) (p : AlarmPatch) (now : Nat)
    (h1 : p.enabled = none) (h2 : p.hour = none) (h3 : p.minute = none)
    (h4 : p.days = none) (h5 : p.date = none) (h6 : p.isOneTime = none) :
    (updateAlarm ctx co a p now).1.notificationIds = a.notificationIds ∧
    (updateAlarm ctx co a p now).2 = [] := by
  have hkeys : alarmRescheduleKeys p = false := by
    simp [alarmRescheduleKeys, h1, h2, h3, h4, h5, h6]
  unfold updateAlarm
  rw [hkeys]
  simp [applyAlarmPatch]

/-- Witness for C10: renaming an alarm (patch touching only `name`)
preserves its handles and makes no dispatcher call. -/
theorem updateAlarm_unrelated_fields_frame_witness :
    (updateAlarm ⟨true, fun _ => "n"⟩ (fun _ => true)
        ⟨"a", 9, 0, [1], true, "s", true, 5, false, none, false, none, ["x"]⟩
        ({ name := some "b" } : AlarmPatch) 0).1.notificationIds = ["x"] ∧
    (updateAlarm ⟨true, fun _ => "n"⟩ (fun _ => true)
        ⟨"a", 9, 0, [1], true, "s", true, 5, false, none, false, none, ["x"]⟩
        ({ name := some "b" } : AlarmPatch) 0).2 = [] :=
  updateAlarm_unrelated_fields_frame ⟨true, fun _ => "n"⟩ (fun _ => true)
    ⟨"a", 9, 0, [1], true, "s", true, 5, false, none, false, none, ["x"]⟩
    ({ name := some "b" } : AlarmPatch) 0 rfl rfl rfl rfl rfl rfl

end SmartRounder
